import Mathlib

/-!
# Verification of the multi-PC monitoring collector core

Shallow embedding of the backend's data-retention and aggregation engine:
the Mongoose model `models/SystemInfo.js` (schema, TTL index, statics
`getLatestData`, `getHistoricalData`, `getOverviewStats`) and the Express
routes in `routes/systemData.js` (POST `/`, GET `/`, GET `/pcs`,
DELETE `/cleanup`).

Modelling conventions:
* The MongoDB collection is a `List Sample` in insertion order (earlier
  inserts first).  Numbers are `ℚ` (JS numbers used for percentages and
  averages), timestamps are `ℤ` milliseconds since the epoch.
* MongoDB leaves the relative order of documents with equal sort keys
  unspecified; the embedding uses the stable `List.insertionSort`, the
  canonical deterministic refinement, so ties keep insertion order.
* The TTL monitor (`expireAfterSeconds: 86400` on `createdAt`) physically
  deletes expired documents in the background; it is modelled by the
  explicit sweep `ttlSweep`, applied only where a theorem assumes the
  sweep has run.
-/

namespace PCMonitor

/-- One document of the `SystemInfo` collection (`models/SystemInfo.js`):
`pcId`, `cpu`, `ram`, `disk`, `os`, `uptime`, plus the `createdAt`
timestamp added by `timestamps: true`. -/
structure Sample where
  pcId : String
  cpu : ℚ
  ram : ℚ
  disk : ℚ
  os : String
  uptime : ℚ
  createdAt : ℤ
deriving DecidableEq, Repr

/-- The collection contents, in insertion order. -/
abbrev Store := List Sample

def msPerHour : ℤ := 60 * 60 * 1000

/-- `expireAfterSeconds` of the TTL index declared on `createdAt` in
`models/SystemInfo.js`: `24 * 60 * 60`. -/
def ttlExpireAfterSeconds : ℤ := 24 * 60 * 60

/-- The TTL monitor's physical deletion, once it has swept: keep exactly the
documents that have not yet reached `createdAt + expireAfterSeconds`. -/
def ttlSweep (now : ℤ) (store : Store) : Store :=
  store.filter fun s => now - s.createdAt < ttlExpireAfterSeconds * 1000

/-- Sort key of `getLatestData`'s `$sort: { pcId: 1, createdAt: -1 }`.
String comparison is byte/codepoint lexicographic, stated on the
character data so that it evaluates by kernel reduction. -/
def latestSortLE (a b : Sample) : Prop :=
  a.pcId.data < b.pcId.data ∨ (a.pcId = b.pcId ∧ b.createdAt ≤ a.createdAt)

instance : DecidableRel latestSortLE := fun a b => by
  unfold latestSortLE; infer_instance

instance : IsTotal Sample latestSortLE where
  total a b := by
    rcases lt_trichotomy a.pcId b.pcId with h | h | h
    · exact Or.inl (Or.inl (String.lt_iff_toList_lt.mp h))
    · rcases le_total b.createdAt a.createdAt with h' | h'
      · exact Or.inl (Or.inr ⟨h, h'⟩)
      · exact Or.inr (Or.inr ⟨h.symm, h'⟩)
    · exact Or.inr (Or.inl (String.lt_iff_toList_lt.mp h))

instance : IsTrans Sample latestSortLE where
  trans a b c hab hbc := by
    rcases hab with h1 | ⟨e1, t1⟩
    · rcases hbc with h2 | ⟨e2, _⟩
      · exact Or.inl (String.lt_iff_toList_lt.mp
          ((String.lt_iff_toList_lt.mpr h1).trans
            (String.lt_iff_toList_lt.mpr h2)))
      · exact Or.inl (e2 ▸ h1)
    · rcases hbc with h2 | ⟨e2, t2⟩
      · exact Or.inl (e1 ▸ h2)
      · exact Or.inr ⟨e1.trans e2, t2.trans t1⟩

/-- The `$group: { _id: '$pcId', latestData: { $first: '$$ROOT' } }` stage,
streaming: `seen` is the set of group keys already opened; a document whose
`pcId` was already seen only feeds `$first`'s already-fixed accumulator, a
new `pcId` opens a group whose `$first` is that document. -/
def groupFirstAux (seen : List String) : List Sample → List Sample
  | [] => []
  | s :: rest =>
      if s.pcId ∈ seen then groupFirstAux seen rest
      else s :: groupFirstAux (s.pcId :: seen) rest

/-- The `$group` + `$replaceRoot` stages of `getLatestData`: keep, in
stream order, the first document of each distinct `pcId`. -/
def groupFirst (l : List Sample) : List Sample := groupFirstAux [] l

/-- `SystemInfo.getLatestData()`: sort by `(pcId asc, createdAt desc)`,
then take the first document of each `pcId` group. -/
def getLatestData (store : Store) : List Sample :=
  groupFirst (List.insertionSort latestSortLE store)

/-- Sort key of `getHistoricalData`'s `.sort({ createdAt: 1 })`. -/
def histSortLE (a b : Sample) : Prop := a.createdAt ≤ b.createdAt

instance : DecidableRel histSortLE := fun a b => by
  unfold histSortLE; infer_instance

instance : IsTotal Sample histSortLE where
  total a b := le_total a.createdAt b.createdAt

instance : IsTrans Sample histSortLE where
  trans _ _ _ h h' := le_trans h h'

/-- `SystemInfo.getHistoricalData(pcId, hours)`:
`find({ pcId, createdAt: { $gte: cutoff } }).sort({ createdAt: 1 })` with
`cutoff = Date.now() - hours * 60 * 60 * 1000`. -/
def getHistoricalData (pcId : String) (hours : ℤ) (now : ℤ) (store : Store) :
    List Sample :=
  let cutoff := now - hours * msPerHour
  List.insertionSort histSortLE
    (store.filter fun s => s.pcId = pcId ∧ cutoff ≤ s.createdAt)

/-- Sort key of the pcId branch's `findOne({ pcId }).sort({ createdAt: -1 })`. -/
def createdDescLE (a b : Sample) : Prop := b.createdAt ≤ a.createdAt

instance : DecidableRel createdDescLE := fun a b => by
  unfold createdDescLE; infer_instance

instance : IsTotal Sample createdDescLE where
  total a b := le_total b.createdAt a.createdAt

instance : IsTrans Sample createdDescLE where
  trans _ _ _ h h' := le_trans h' h

/-- `SystemInfo.findOne({ pcId }).sort({ createdAt: -1 })`: the matching
document with the greatest `createdAt` (or `null`). -/
def findLatest (pcId : String) (store : Store) : Option Sample :=
  (List.insertionSort createdDescLE (store.filter fun s => s.pcId = pcId)).head?

/-- The one document of `getOverviewStats`' `$project` stage. -/
structure Overview where
  avgCpu : ℚ
  avgRam : ℚ
  avgDisk : ℚ
  totalPCs : ℕ
deriving DecidableEq, Repr

/-- The `$avg` accumulator: stream the values through a running
(sum, count) pair, then divide. -/
def aggAvg (l : List ℚ) : ℚ :=
  let p := l.foldl (fun acc x => (acc.1 + x, acc.2 + 1)) ((0 : ℚ), (0 : ℕ))
  p.1 / (p.2 : ℚ)

/-- The `$addToSet` accumulator: collect each value once, in stream order. -/
def addToSet (l : List String) : List String :=
  l.foldl (fun acc x => if x ∈ acc then acc else acc ++ [x]) []

/-- MongoDB's `$round` at the integer level: round half to even. -/
def roundHalfEven (q : ℚ) : ℤ :=
  if q - ⌊q⌋ < 1 / 2 then ⌊q⌋
  else if 1 / 2 < q - ⌊q⌋ then ⌊q⌋ + 1
  else if ⌊q⌋ % 2 = 0 then ⌊q⌋ else ⌊q⌋ + 1

/-- `{ $round: [x, 2] }`: round to 2 decimal places, half to even. -/
def round2 (q : ℚ) : ℚ := (roundHalfEven (q * 100) : ℚ) / 100

/-- The `$match` stage of `getOverviewStats`:
`createdAt >= Date.now() - 24*60*60*1000` — the window is hard-coded to
24 hours. -/
def overviewWindow (now : ℤ) (store : Store) : Store :=
  store.filter fun s => now - 24 * msPerHour ≤ s.createdAt

/-- `SystemInfo.getOverviewStats()`: `$match` on the hard-coded 24-hour
window, `$group` with `$avg` on cpu/ram/disk and `$addToSet` on pcId, then
`$project` with `$round` 2 and `$size`.  With no matching document the
`$group` stage emits nothing, so the pipeline returns `[]`. -/
def getOverviewStats (now : ℤ) (store : Store) : List Overview :=
  let matched := overviewWindow now store
  if matched.isEmpty then []
  else
    [{ avgCpu := round2 (aggAvg (matched.map Sample.cpu)),
       avgRam := round2 (aggAvg (matched.map Sample.ram)),
       avgDisk := round2 (aggAvg (matched.map Sample.disk)),
       totalPCs := (addToSet (matched.map Sample.pcId)).length }]

/-- Responses of `GET /api/systemdata` (`routes/systemData.js`). -/
inductive GetResp where
  | badRequest (msg : String)
  | pcData (pcId : String) (latest : Option Sample) (historical : List Sample)
      (timeRange : String)
  | allData (latest : List Sample) (overview : Overview) (timeRange : String)
deriving DecidableEq, Repr

/-- `router.get('/')`: validate `hours` (default 24, must be 1–168), then
either the per-PC branch (`findOne` latest + `getHistoricalData`) or the
all-PCs branch (`getLatestData` + `getOverviewStats()[0] || zeros`).
`hours` is the already-parsed integer (`parseInt` of the query string);
`none` means the parameter was absent, so the default `24` applies. -/
def getRoute (pcId : Option String) (hours : Option ℤ) (now : ℤ)
    (store : Store) : GetResp :=
  let hoursNum := hours.getD 24
  if hoursNum < 1 ∨ 168 < hoursNum then
    .badRequest "Invalid hours parameter (1-168)"
  else
    -- `if (pcId)`: absent and empty string are both falsy
    let p := pcId.getD ""
    if p ≠ "" then
      .pcData p (findLatest p store) (getHistoricalData p hoursNum now store)
        (toString hoursNum ++ " hours")
    else
      .allData (getLatestData store)
        ((getOverviewStats now store).headD ⟨0, 0, 0, 0⟩) "24 hours"

/-- `router.get('/pcs')`: the list of latest samples and its length. -/
def pcsRoute (store : Store) : List Sample × ℕ :=
  (getLatestData store, (getLatestData store).length)

/-- Responses of `DELETE /api/systemdata/cleanup`. -/
inductive CleanupResp where
  | ok (deletedCount : ℕ)
  | badRequest (msg : String)
  | serverError (msg : String)
deriving DecidableEq, Repr

/-- The statics actually defined on the `SystemInfo` model in
`models/SystemInfo.js`.  `cleanupOldData`, which `router.delete('/cleanup')`
invokes, is not among them. -/
def systemInfoStatics : List String :=
  ["getLatestData", "getHistoricalData", "getOverviewStats"]

/-- `router.delete('/cleanup')`: validate `hours` (default 24, must be
`>= 1`), then call `SystemInfo.cleanupOldData(hoursNum)`.  That static does
not exist on the model, so the call raises
`TypeError: SystemInfo.cleanupOldData is not a function`, which the
surrounding `catch` turns into a 500 response — on every store, including
the empty one. -/
def cleanupRoute (hours : Option ℤ) (_store : Store) : CleanupResp :=
  let hoursNum := hours.getD 24
  if hoursNum < 1 then .badRequest "Invalid hours parameter"
  else .serverError "SystemInfo.cleanupOldData is not a function"

/-- The request body of `POST /api/systemdata`; `none` = field absent. -/
structure PostBody where
  pcId : Option String := none
  cpu : Option ℚ := none
  ram : Option ℚ := none
  disk : Option ℚ := none
  os : Option String := none
  uptime : Option ℚ := none

/-- JS falsiness of a string-or-undefined value (`!pcId`, `!os`). -/
def strFalsy : Option String → Bool
  | none => true
  | some s => s = ""

/-- Responses of `POST /api/systemdata`. -/
inductive PostResp where
  | created (s : Sample)
  | missingField (msg : String)
  | outOfRange (msg : String)
deriving DecidableEq, Repr

/-- `router.post('/')`: reject when a required field is absent (`!pcId`,
`cpu === undefined`, …), then when a value is out of range
(`cpu < 0 || cpu > 100 || … || uptime < 0`); otherwise build the document,
save it (append to the collection, `createdAt := now`) and answer 201.
The `getD` defaults are never consulted: the missing-field guard has
already ensured every field is present. -/
def postRoute (b : PostBody) (now : ℤ) (store : Store) : PostResp × Store :=
  if strFalsy b.pcId ∨ b.cpu = none ∨ b.ram = none ∨ b.disk = none ∨
      strFalsy b.os ∨ b.uptime = none then
    (.missingField "Missing required fields: pcId, cpu, ram, disk, os, uptime",
      store)
  else
    let c := b.cpu.getD 0
    let r := b.ram.getD 0
    let d := b.disk.getD 0
    let u := b.uptime.getD 0
    if c < 0 ∨ 100 < c ∨ r < 0 ∨ 100 < r ∨ d < 0 ∨ 100 < d ∨ u < 0 then
      (.outOfRange "Invalid data ranges: cpu/ram/disk (0-100), uptime (>=0)",
        store)
    else
      let s : Sample :=
        { pcId := b.pcId.getD "", cpu := c, ram := r, disk := d,
          os := b.os.getD "", uptime := u, createdAt := now }
      (.created s, store ++ [s])


/-- Fixture store for witnesses: machine `A` has samples at times 100 and
200, machine `B` one at time 150. -/
def wStore : Store :=
  [⟨"A", 10, 10, 10, "linux", 5, 100⟩,
   ⟨"A", 30, 30, 30, "linux", 7, 200⟩,
   ⟨"B", 40, 40, 40, "win", 8, 150⟩]

/-- Machine `A`'s most recent fixture sample. -/
def wLatestA : Sample := ⟨"A", 30, 30, 30, "linux", 7, 200⟩

/-- Fixture for the overview witness: cpu values 10, 20, 30 on three
distinct machines, all inside the 24-hour window at `now = 100`. -/
def wOverviewStore : Store :=
  [⟨"A", 10, 40, 70, "linux", 1, 10⟩,
   ⟨"B", 20, 50, 80, "linux", 2, 20⟩,
   ⟨"C", 30, 60, 90, "win", 3, 30⟩]


/-- Projection of the all-PCs response's `overview` field (zero object on
the other constructors). -/
def respOverview : GetResp → Overview
  | .allData _ ov _ => ov
  | _ => ⟨0, 0, 0, 0⟩

/-- Following the spec's words (§4.2): `allWithinWindow(windowHours)` is
the set of stored Samples with `recordedAt >= now - windowHours` hours.
Stated only as the comparison point for the claim that the overview is
computed from it. -/
def specAllWithinWindow (hours now : ℤ) (store : Store) : Store :=
  store.filter fun s => now - hours * msPerHour ≤ s.createdAt

/-- Tie fixture: first-inserted of two same-machine, same-timestamp
samples. -/
def wTieFirst : Sample := ⟨"A", 10, 10, 10, "linux", 5, 100⟩

/-- Tie fixture: second-inserted of two same-machine, same-timestamp
samples. -/
def wTieSecond : Sample := ⟨"A", 20, 20, 20, "linux", 6, 100⟩

/-- Store holding the two tied samples in insertion order. -/
def wTieStore : Store := [wTieFirst, wTieSecond]

/-- A sample recorded at time 0; at `now = 90000000` (25 h later) it is
past the 24-hour retention window but still physically present if the TTL
sweep has not yet run. -/
def wExpired : Sample := ⟨"A", 50, 50, 50, "linux", 10, 0⟩

/-- Store physically holding only the expired sample. -/
def wExpiredStore : Store := [wExpired]

/-- A sample recorded 2 hours before `now = 14400000`: inside the
hard-coded 24-hour overview window but outside a 1-hour query window. -/
def wStale : Sample := ⟨"A", 50, 50, 50, "linux", 10, 7200000⟩

/-- Store holding only the 2-hour-old sample. -/
def wStaleStore : Store := [wStale]

/-! ## Properties of the grouping stage -/
theorem mem_of_mem_groupFirstAux : ∀ {seen : List String} {l : List Sample}
    {s : Sample}, s ∈ groupFirstAux seen l → s ∈ l := by
  intro seen l
  induction l generalizing seen with
  | nil => intro s h; simp [groupFirstAux] at h
  | cons a rest ih =>
    intro s h
    rw [groupFirstAux] at h
    by_cases hs : a.pcId ∈ seen
    · rw [if_pos hs] at h
      exact List.mem_cons_of_mem _ (ih h)
    · rw [if_neg hs] at h
      rcases List.mem_cons.mp h with rfl | h'
      · exact List.mem_cons_self _ _
      · exact List.mem_cons_of_mem _ (ih h')

theorem pcId_not_seen_of_mem_groupFirstAux : ∀ {seen : List String}
    {l : List Sample} {s : Sample},
    s ∈ groupFirstAux seen l → s.pcId ∉ seen := by
  intro seen l
  induction l generalizing seen with
  | nil => intro s h; simp [groupFirstAux] at h
  | cons a rest ih =>
    intro s h
    rw [groupFirstAux] at h
    by_cases hs : a.pcId ∈ seen
    · rw [if_pos hs] at h
      exact ih h
    · rw [if_neg hs] at h
      rcases List.mem_cons.mp h with rfl | h'
      · exact hs
      · exact fun hmem => ih h' (List.mem_cons_of_mem _ hmem)

theorem nodup_groupFirstAux_pcId : ∀ {seen : List String} (l : List Sample),
    ((groupFirstAux seen l).map Sample.pcId).Nodup := by
  intro seen l
  induction l generalizing seen with
  | nil => simp [groupFirstAux]
  | cons a rest ih =>
    rw [groupFirstAux]
    by_cases hs : a.pcId ∈ seen
    · rw [if_pos hs]; exact ih
    · rw [if_neg hs]
      refine List.Nodup.cons ?_ ih
      intro hmem
      rcases List.mem_map.mp hmem with ⟨s, hsm, hpc⟩
      exact pcId_not_seen_of_mem_groupFirstAux hsm
        (hpc ▸ List.mem_cons_self _ _)

theorem mem_groupFirstAux_pcId : ∀ {seen : List String} (l : List Sample)
    (p : String), p ∈ (groupFirstAux seen l).map Sample.pcId ↔
      (p ∈ l.map Sample.pcId ∧ p ∉ seen) := by
  intro seen l
  induction l generalizing seen with
  | nil => intro p; simp [groupFirstAux]
  | cons a rest ih =>
    intro p
    rw [groupFirstAux]
    by_cases hs : a.pcId ∈ seen
    · rw [if_pos hs]
      rw [ih]
      simp only [List.map_cons, List.mem_cons]
      constructor
      · rintro ⟨h1, h2⟩; exact ⟨Or.inr h1, h2⟩
      · rintro ⟨h1 | h1, h2⟩
        · exact absurd (h1 ▸ hs) h2
        · exact ⟨h1, h2⟩
    · rw [if_neg hs]
      simp only [List.map_cons, List.mem_cons, ih]
      constructor
      · rintro (rfl | ⟨h1, h2⟩)
        · exact ⟨Or.inl rfl, hs⟩
        · exact ⟨Or.inr h1, fun hp => h2 (Or.inr hp)⟩
      · rintro ⟨rfl | h1, h2⟩
        · exact Or.inl rfl
        · by_cases hpa : p = a.pcId
          · exact Or.inl hpa
          · exact Or.inr ⟨h1, by
              intro hmem
              rcases hmem with h | h
              · exact hpa h
              · exact h2 h⟩

theorem groupFirstAux_max : ∀ {seen : List String} {l : List Sample},
    l.Pairwise latestSortLE → ∀ {s : Sample}, s ∈ groupFirstAux seen l →
    ∀ {t : Sample}, t ∈ l → t.pcId = s.pcId → t.createdAt ≤ s.createdAt := by
  intro seen l
  induction l generalizing seen with
  | nil => intro _ s hs; simp [groupFirstAux] at hs
  | cons a rest ih =>
    intro hp s hs t ht hpc
    rw [groupFirstAux] at hs
    by_cases hseen : a.pcId ∈ seen
    · rw [if_pos hseen] at hs
      rcases List.mem_cons.mp ht with rfl | ht'
      · exact absurd (hpc ▸ hseen)
          (pcId_not_seen_of_mem_groupFirstAux hs)
      · exact ih (List.pairwise_cons.mp hp).2 hs ht' hpc
    · rw [if_neg hseen] at hs
      rcases List.mem_cons.mp hs with rfl | hs'
      · rcases List.mem_cons.mp ht with rfl | ht'
        · exact le_refl _
        · rcases (List.pairwise_cons.mp hp).1 t ht' with hlt | ⟨_, hle⟩
          · exact absurd (congrArg String.data hpc) (ne_of_gt hlt)
          · exact hle
      · have hnotin := pcId_not_seen_of_mem_groupFirstAux hs'
        rcases List.mem_cons.mp ht with rfl | ht'
        · exact absurd (hpc ▸ List.mem_cons_self s.pcId seen)
            (hpc ▸ hnotin)
        · exact ih (List.pairwise_cons.mp hp).2 hs' ht' hpc

theorem mem_of_mem_groupFirst {l : List Sample} {s : Sample}
    (h : s ∈ groupFirst l) : s ∈ l :=
  mem_of_mem_groupFirstAux h

theorem nodup_groupFirst_pcId (l : List Sample) :
    ((groupFirst l).map Sample.pcId).Nodup :=
  nodup_groupFirstAux_pcId l

theorem mem_groupFirst_pcId (l : List Sample) (p : String) :
    p ∈ (groupFirst l).map Sample.pcId ↔ p ∈ l.map Sample.pcId := by
  rw [groupFirst, mem_groupFirstAux_pcId]
  simp

theorem groupFirst_max {l : List Sample} (hp : l.Pairwise latestSortLE)
    {s : Sample} (hs : s ∈ groupFirst l) {t : Sample} (ht : t ∈ l)
    (hpc : t.pcId = s.pcId) : t.createdAt ≤ s.createdAt :=
  groupFirstAux_max hp hs ht hpc


/-! ## Claims -/

/-- **C2.** For every store state, `latestPerMachine` (GET
`/systemdata/machines`, implemented by `getLatestData`) returns exactly one
entry per distinct machineId present in the store — the returned pcIds are
duplicate-free and range over exactly the machineIds of the store — and each
returned entry is a stored Sample of its machine carrying the maximum
`recordedAt` among that machine's Samples. -/
theorem latestPerMachine_correct (store : Store) :
    ((getLatestData store).map Sample.pcId).Nodup ∧
    (∀ p : String,
      p ∈ (getLatestData store).map Sample.pcId ↔ p ∈ store.map Sample.pcId) ∧
    (∀ s ∈ getLatestData store, s ∈ store ∧
      ∀ t ∈ store, t.pcId = s.pcId → t.createdAt ≤ s.createdAt) := by
  refine ⟨nodup_groupFirst_pcId _, fun p => ?_, fun s hs => ?_⟩
  · rw [getLatestData, mem_groupFirst_pcId]
    constructor
    · intro h
      rcases List.mem_map.mp h with ⟨t, ht, rfl⟩
      exact List.mem_map_of_mem _ ((List.mem_insertionSort _).mp ht)
    · intro h
      rcases List.mem_map.mp h with ⟨t, ht, rfl⟩
      exact List.mem_map_of_mem _ ((List.mem_insertionSort _).mpr ht)
  · have hmem := (List.mem_insertionSort _).mp (mem_of_mem_groupFirst hs)
    refine ⟨hmem, fun t ht hpc => ?_⟩
    exact groupFirst_max (List.sorted_insertionSort _ _) hs
      ((List.mem_insertionSort _).mpr ht) hpc

/-- Witness for C2 at the concrete fixture store: the entry returned for
machine `A` is its time-200 sample, which dominates both of `A`'s samples. -/
theorem latestPerMachine_correct_witness :
    ("A" ∈ (getLatestData wStore).map Sample.pcId ↔
      "A" ∈ wStore.map Sample.pcId) ∧
    (wLatestA ∈ wStore ∧
      ∀ t ∈ wStore, t.pcId = wLatestA.pcId → t.createdAt ≤ wLatestA.createdAt) :=
  ⟨(latestPerMachine_correct wStore).2.1 "A",
   (latestPerMachine_correct wStore).2.2 wLatestA (by decide)⟩


/-- **C6.** For every machineId and every valid windowHours `h` (1–168),
`historyFor(machineId, h)` (`getHistoricalData`) returns exactly the stored
Samples of that machineId with `recordedAt >= now - h` hours (as a
permutation of that filter, i.e. the same multiset), ordered ascending by
`recordedAt`, and returns the empty sequence — not an error — when the
machineId is unknown. -/
theorem historyFor_correct (p : String) (h now : ℤ) (store : Store)
    (_hlo : 1 ≤ h) (_hhi : h ≤ 168) :
    (getHistoricalData p h now store).Perm
      (store.filter fun s => s.pcId = p ∧ now - h * msPerHour ≤ s.createdAt) ∧
    (getHistoricalData p h now store).Sorted histSortLE ∧
    ((∀ t ∈ store, t.pcId ≠ p) → getHistoricalData p h now store = []) := by
  refine ⟨List.perm_insertionSort _ _, List.sorted_insertionSort _ _, ?_⟩
  intro hnone
  rw [getHistoricalData]
  have : (store.filter fun s => s.pcId = p ∧ now - h * msPerHour ≤ s.createdAt)
      = [] := by
    rw [List.filter_eq_nil_iff]
    intro a ha
    simp only [decide_eq_true_eq, not_and]
    intro hpc
    exact absurd hpc (hnone a ha)
  simp only [this]
  rfl

/-- Witness for C6: machine `A` of the fixture store at `now = 200`,
window 24 h; and the unknown machine `C` yields `[]`. -/
theorem historyFor_correct_witness :
    ((getHistoricalData "A" 24 200 wStore).Perm
      (wStore.filter fun s => s.pcId = "A" ∧ 200 - 24 * msPerHour ≤ s.createdAt) ∧
    (getHistoricalData "A" 24 200 wStore).Sorted histSortLE ∧
    ((∀ t ∈ wStore, t.pcId ≠ "A") → getHistoricalData "A" 24 200 wStore = [])) ∧
    getHistoricalData "C" 24 200 wStore = [] :=
  ⟨historyFor_correct "A" 24 200 wStore (by decide) (by decide),
   (historyFor_correct "C" 24 200 wStore (by decide) (by decide)).2.2 (by decide)⟩

/-- **C9.** For GET `/systemdata` with a machineId (valid `hours`,
non-empty id), the response's `latest` is `findLatest`, which considers all
stored data with no time window: it is `null` exactly when the machine has
no stored Sample, and otherwise a stored Sample of that machine with the
maximum `recordedAt`. -/
theorem machineLatest_correct (p : String) (h now : ℤ) (store : Store)
    (hlo : 1 ≤ h) (hhi : h ≤ 168) (hp : p ≠ "") :
    getRoute (some p) (some h) now store =
      GetResp.pcData p (findLatest p store) (getHistoricalData p h now store)
        (toString h ++ " hours") ∧
    (findLatest p store = none ↔ ∀ t ∈ store, t.pcId ≠ p) ∧
    (∀ s, findLatest p store = some s → s ∈ store ∧ s.pcId = p ∧
      ∀ t ∈ store, t.pcId = p → t.createdAt ≤ s.createdAt) := by
  refine ⟨?_, ?_, ?_⟩
  · rw [getRoute]
    have h1 : ¬((some h).getD 24 < 1 ∨ 168 < (some h).getD 24) := by
      simp only [Option.getD_some]
      omega
    rw [if_neg h1]
    simp only [Option.getD_some, if_pos hp]
  · rw [findLatest, List.head?_eq_none_iff]
    constructor
    · intro hsort t ht hpc
      have : t ∈ List.insertionSort createdDescLE
          (store.filter fun s => s.pcId = p) := by
        rw [List.mem_insertionSort, List.mem_filter]
        exact ⟨ht, by simpa using hpc⟩
      rw [hsort] at this
      exact absurd this (List.not_mem_nil t)
    · intro hnone
      have : (store.filter fun s => s.pcId = p) = [] := by
        rw [List.filter_eq_nil_iff]
        intro a ha
        simpa using hnone a ha
      rw [this]
      rfl
  · intro s hsome
    rw [findLatest] at hsome
    rcases hsort : List.insertionSort createdDescLE
        (store.filter fun s => s.pcId = p) with _ | ⟨a, tail⟩
    · rw [hsort] at hsome
      exact absurd hsome (by simp)
    · rw [hsort] at hsome
      have hsa : s = a := by simpa using hsome.symm
      subst hsa
      have hmem : s ∈ store.filter fun t => t.pcId = p := by
        rw [← List.mem_insertionSort (r := createdDescLE), hsort]
        exact List.mem_cons_self _ _
      have hmem' := List.mem_filter.mp hmem
      refine ⟨hmem'.1, by simpa using hmem'.2, fun t ht hpc => ?_⟩
      have htmem : t ∈ List.insertionSort createdDescLE
          (store.filter fun s => s.pcId = p) := by
        rw [List.mem_insertionSort, List.mem_filter]
        exact ⟨ht, by simpa using hpc⟩
      rw [hsort] at htmem
      rcases List.mem_cons.mp htmem with rfl | htail
      · exact le_refl _
      · have hsorted := List.sorted_insertionSort createdDescLE
          (store.filter fun s => s.pcId = p)
        rw [hsort] at hsorted
        exact List.rel_of_sorted_cons hsorted t htail

/-- Witness for C9: the route response for machine `A` of the fixture
store, whose latest is the time-200 sample; machine `C` gives `null`. -/
theorem machineLatest_correct_witness :
    (getRoute (some "A") (some 24) 200 wStore =
      GetResp.pcData "A" (findLatest "A" wStore)
        (getHistoricalData "A" 24 200 wStore) "24 hours") ∧
    (wLatestA ∈ wStore ∧ wLatestA.pcId = "A" ∧
      ∀ t ∈ wStore, t.pcId = "A" → t.createdAt ≤ wLatestA.createdAt) ∧
    (findLatest "C" wStore = none ↔ ∀ t ∈ wStore, t.pcId ≠ "C") :=
  ⟨(machineLatest_correct "A" 24 200 wStore (by decide) (by decide)
      (by decide)).1,
   (machineLatest_correct "A" 24 200 wStore (by decide) (by decide)
      (by decide)).2.2 wLatestA (by decide),
   (machineLatest_correct "C" 24 200 wStore (by decide) (by decide)
      (by decide)).2.1⟩


theorem aggAvg_eq (l : List ℚ) : aggAvg l = l.sum / (l.length : ℚ) := by
  have hgo : ∀ (l : List ℚ) (s : ℚ) (n : ℕ),
      l.foldl (fun acc x => (acc.1 + x, acc.2 + 1)) (s, n)
        = (s + l.sum, n + l.length) := by
    intro l
    induction l with
    | nil => intro s n; simp
    | cons x xs ih =>
      intro s n
      simp only [List.foldl_cons, ih, List.sum_cons, List.length_cons,
        Prod.mk.injEq]
      exact ⟨by ring, by omega⟩
  rw [aggAvg]
  simp [hgo]

theorem addToSet_go (l : List String) : ∀ acc : List String, acc.Nodup →
    (l.foldl (fun acc x => if x ∈ acc then acc else acc ++ [x]) acc).Nodup ∧
    (l.foldl (fun acc x => if x ∈ acc then acc else acc ++ [x]) acc).toFinset
      = acc.toFinset ∪ l.toFinset := by
  induction l with
  | nil => intro acc h; exact ⟨h, by simp⟩
  | cons x xs ih =>
    intro acc h
    rw [List.foldl_cons]
    by_cases hx : x ∈ acc
    · rw [if_pos hx]
      refine ⟨(ih acc h).1, ?_⟩
      rw [(ih acc h).2]
      ext y
      simp only [Finset.mem_union, List.mem_toFinset, List.toFinset_cons,
        Finset.mem_insert]
      constructor
      · rintro (hy | hy)
        · exact Or.inl hy
        · exact Or.inr (Or.inr hy)
      · rintro (hy | rfl | hy)
        · exact Or.inl hy
        · exact Or.inl hx
        · exact Or.inr hy
    · rw [if_neg hx]
      have hnd : (acc ++ [x]).Nodup := by
        rw [List.nodup_append]
        exact ⟨h, List.nodup_singleton x, by simpa using hx⟩
      refine ⟨(ih _ hnd).1, ?_⟩
      rw [(ih _ hnd).2]
      ext y
      simp only [Finset.mem_union, List.mem_toFinset, List.mem_append,
        List.mem_singleton, List.toFinset_cons, Finset.mem_insert]
      tauto

theorem addToSet_length (l : List String) :
    (addToSet l).length = l.toFinset.card := by
  have h := addToSet_go l [] List.nodup_nil
  rw [addToSet]
  have hcard := List.toFinset_card_of_nodup h.1
  rw [← hcard, h.2]
  simp

/-- **C3.** The overview returned by the all-PCs branch
(`getOverviewStats()[0] || zeros`): with at least one Sample in the
overview window, `avgCpu`/`avgRam`/`avgDisk` are the arithmetic means of
the respective fields over the in-window Samples rounded to 2 decimal
places, and `totalPCs` is the number of distinct machineIds among them;
with zero Samples in the window the overview is all zeros — the empty
aggregation result falls back to the zero object, with no
division-by-zero failure. -/
theorem overview_correct (now : ℤ) (store : Store) :
    (overviewWindow now store ≠ [] →
      ((getOverviewStats now store).headD ⟨0, 0, 0, 0⟩ : Overview) =
        { avgCpu := round2 (((overviewWindow now store).map Sample.cpu).sum
            / ((overviewWindow now store).length : ℚ)),
          avgRam := round2 (((overviewWindow now store).map Sample.ram).sum
            / ((overviewWindow now store).length : ℚ)),
          avgDisk := round2 (((overviewWindow now store).map Sample.disk).sum
            / ((overviewWindow now store).length : ℚ)),
          totalPCs := ((overviewWindow now store).map Sample.pcId).toFinset.card }) ∧
    (overviewWindow now store = [] →
      ((getOverviewStats now store).headD ⟨0, 0, 0, 0⟩ : Overview)
        = ⟨0, 0, 0, 0⟩) := by
  constructor
  · intro hne
    rw [getOverviewStats]
    simp only [List.isEmpty_iff]
    rw [if_neg hne]
    simp only [List.headD_cons]
    have hlen : ∀ f : Sample → ℚ,
        ((overviewWindow now store).map f).length
          = (overviewWindow now store).length := List.length_map _
    congr 1
    · rw [aggAvg_eq, hlen]
    · rw [aggAvg_eq, hlen]
    · rw [aggAvg_eq, hlen]
    · rw [addToSet_length]
  · intro he
    rw [getOverviewStats]
    simp only [List.isEmpty_iff]
    rw [if_pos he]
    rfl

/-- Witness for C3: cpu 10/20/30 on three distinct machines (mean 20,
3 machines), and the empty store giving the all-zero overview. -/
theorem overview_correct_witness :
    ((getOverviewStats 100 wOverviewStore).headD ⟨0, 0, 0, 0⟩ : Overview) =
      { avgCpu := round2 (((overviewWindow 100 wOverviewStore).map Sample.cpu).sum
          / ((overviewWindow 100 wOverviewStore).length : ℚ)),
        avgRam := round2 (((overviewWindow 100 wOverviewStore).map Sample.ram).sum
          / ((overviewWindow 100 wOverviewStore).length : ℚ)),
        avgDisk := round2 (((overviewWindow 100 wOverviewStore).map Sample.disk).sum
          / ((overviewWindow 100 wOverviewStore).length : ℚ)),
        totalPCs := ((overviewWindow 100 wOverviewStore).map Sample.pcId).toFinset.card } ∧
    ((getOverviewStats 100 ([] : Store)).headD ⟨0, 0, 0, 0⟩ : Overview)
      = ⟨0, 0, 0, 0⟩ :=
  ⟨(overview_correct 100 wOverviewStore).1 (by decide),
   (overview_correct 100 ([] : Store)).2 rfl⟩


/-- **C7 counterexample.** At `now = 14400000` with one sample recorded 2
hours earlier and `hours = 1` (valid, in [1,168]): the spec-side
`allWithinWindow(1)` is empty, so an overview computed from it would count
0 machines, yet the response's overview counts 1 machine — the route
passes `hours` only through validation and `getOverviewStats()` always
uses its hard-coded 24-hour window. -/
theorem overview_ignores_hours_counterexample :
    specAllWithinWindow 1 14400000 wStaleStore = [] ∧
    ((specAllWithinWindow 1 14400000 wStaleStore).map Sample.pcId).toFinset.card
      = 0 ∧
    (respOverview (getRoute none (some 1) 14400000 wStaleStore)).totalPCs = 1 := by
  refine ⟨by decide, by decide, ?_⟩
  decide

/-- **C7 (amended).** For GET `/systemdata` with no machineId and any
valid hours parameter `h` in [1,168], the response's overview is always
`getOverviewStats()[0] || zeros` computed over the fixed 24-hour window,
independent of `h`: the response equals the one for `h = 24`, with
`timeRange` reported as "24 hours". -/
theorem overview_fixed_window (h now : ℤ) (store : Store)
    (hlo : 1 ≤ h) (hhi : h ≤ 168) :
    getRoute none (some h) now store =
      GetResp.allData (getLatestData store)
        ((getOverviewStats now store).headD ⟨0, 0, 0, 0⟩) "24 hours" ∧
    getRoute none (some h) now store = getRoute none (some 24) now store := by
  have heq : ∀ h' : ℤ, 1 ≤ h' → h' ≤ 168 →
      getRoute none (some h') now store =
        GetResp.allData (getLatestData store)
          ((getOverviewStats now store).headD ⟨0, 0, 0, 0⟩) "24 hours" := by
    intro h' h1 h2
    rw [getRoute]
    have hcond : ¬((some h').getD 24 < 1 ∨ 168 < (some h').getD 24) := by
      simp only [Option.getD_some]
      omega
    rw [if_neg hcond]
    simp
  exact ⟨heq h hlo hhi, (heq h hlo hhi).trans (heq 24 (by omega) (by omega)).symm⟩

/-- Witness for C7 (amended) at `h = 48` on the 2-hour-old fixture. -/
theorem overview_fixed_window_witness :
    getRoute none (some 48) 14400000 wStaleStore =
      GetResp.allData (getLatestData wStaleStore)
        ((getOverviewStats 14400000 wStaleStore).headD ⟨0, 0, 0, 0⟩) "24 hours" ∧
    getRoute none (some 48) 14400000 wStaleStore =
      getRoute none (some 24) 14400000 wStaleStore :=
  overview_fixed_window 48 14400000 wStaleStore (by decide) (by decide)

/-- **C8 counterexample.** Two samples of machine `A` with identical
`recordedAt = 100`, inserted in the order cpu-10 then cpu-20: the claim
says the most recently inserted (cpu 20) is returned, but `getLatestData`
returns the first-inserted cpu-10 sample (under the stable-sort
refinement of the aggregation's unspecified tie order). -/
theorem latest_tie_counterexample :
    wTieStore = [wTieFirst, wTieSecond] ∧
    wTieFirst.pcId = wTieSecond.pcId ∧
    wTieFirst.createdAt = wTieSecond.createdAt ∧
    wTieFirst.cpu = 10 ∧ wTieSecond.cpu = 20 ∧
    getLatestData wTieStore = [wTieFirst] := by
  refine ⟨rfl, rfl, rfl, rfl, rfl, ?_⟩
  decide

/-- **C8 (amended).** `latestPerMachine` is deterministic for a fixed
store state (`getLatestData` is a pure function of the store under the
stable-sort refinement), and when one machine has two Samples with
identical `recordedAt` timestamps, the entry returned is the
earliest-inserted of the two. -/
theorem latest_tie_first_insert (a b : Sample) (hpc : a.pcId = b.pcId)
    (hts : a.createdAt = b.createdAt) : getLatestData [a, b] = [a] := by
  have hr : latestSortLE a b := Or.inr ⟨hpc, le_of_eq hts.symm⟩
  rw [getLatestData]
  have hsort : List.insertionSort latestSortLE [a, b] = [a, b] := by
    rw [List.insertionSort, List.insertionSort, List.insertionSort,
      List.orderedInsert_nil, List.orderedInsert, if_pos hr]
  rw [hsort, groupFirst, groupFirstAux]
  have hnot : ¬ a.pcId ∈ ([] : List String) := List.not_mem_nil _
  rw [if_neg hnot, groupFirstAux]
  rw [if_pos (by rw [← hpc]; exact List.mem_cons_self _ _)]
  rfl

/-- Witness for C8 (amended) on the two tied fixture samples. -/
theorem latest_tie_first_insert_witness :
    getLatestData [wTieFirst, wTieSecond] = [wTieFirst] :=
  latest_tie_first_insert wTieFirst wTieSecond rfl rfl

/-- **C4 counterexample.** A sample recorded at time 0 is 25 hours old at
`now = 90000000` — beyond the 24-hour retention window — yet while its
physical deletion is deferred (it is still in the store) both the
48-hour history query and `getLatestData` return it: no query filters by
expiry. -/
theorem expired_sample_returned_counterexample :
    (90000000 : ℤ) - wExpired.createdAt > ttlExpireAfterSeconds * 1000 ∧
    wExpired ∈ getHistoricalData "A" 48 90000000 wExpiredStore ∧
    wExpired ∈ getLatestData wExpiredStore := by
  refine ⟨by decide, ?_, ?_⟩ <;> decide

/-- A sample returned by `findLatest` is a member of the store. -/
theorem findLatest_some_mem {p : String} {store : Store} {s : Sample}
    (h : findLatest p store = some s) : s ∈ store := by
  rw [findLatest] at h
  rcases hsort : List.insertionSort createdDescLE
      (store.filter fun t => t.pcId = p) with _ | ⟨a, tail⟩
  · rw [hsort] at h
    exact absurd h (by simp)
  · rw [hsort] at h
    have : s = a := by simpa using h.symm
    subst this
    have : s ∈ store.filter fun t => t.pcId = p := by
      rw [← List.mem_insertionSort (r := createdDescLE), hsort]
      exact List.mem_cons_self _ _
    exact (List.mem_filter.mp this).1

/-- **C4 (amended).** Queries do not filter by expiry; they return
whatever is physically present.  Once the TTL sweep has removed all
expired samples from the store, every query result (`getLatestData`,
`getHistoricalData`, `findLatest`, and the overview's window) contains
only unexpired samples; between expiry and the sweep an expired Sample
can be returned. -/
theorem queries_no_expired_after_sweep (now : ℤ) (store : Store)
    (hswept : ∀ s ∈ store,
      now - s.createdAt < ttlExpireAfterSeconds * 1000) :
    (∀ s ∈ getLatestData store,
      now - s.createdAt < ttlExpireAfterSeconds * 1000) ∧
    (∀ p : String, ∀ h : ℤ, ∀ s ∈ getHistoricalData p h now store,
      now - s.createdAt < ttlExpireAfterSeconds * 1000) ∧
    (∀ p : String, ∀ s : Sample, findLatest p store = some s →
      now - s.createdAt < ttlExpireAfterSeconds * 1000) ∧
    (∀ s ∈ overviewWindow now store,
      now - s.createdAt < ttlExpireAfterSeconds * 1000) := by
  refine ⟨?_, ?_, ?_, ?_⟩
  · intro s hs
    exact hswept s ((List.mem_insertionSort _).mp (mem_of_mem_groupFirst hs))
  · intro p h s hs
    have : s ∈ store.filter fun t =>
        t.pcId = p ∧ now - h * msPerHour ≤ t.createdAt :=
      (List.mem_insertionSort _).mp hs
    exact hswept s (List.mem_of_mem_filter this)
  · intro p s hs
    exact hswept s (findLatest_some_mem hs)
  · intro s hs
    exact hswept s (List.mem_of_mem_filter hs)

/-- Witness for C4 (amended) on the fixture store at `now = 200`, where
no sample is expired. -/
theorem queries_no_expired_after_sweep_witness :
    (∀ s ∈ getLatestData wStore,
      (200 : ℤ) - s.createdAt < ttlExpireAfterSeconds * 1000) ∧
    (wLatestA ∈ getLatestData wStore ∧
      (200 : ℤ) - wLatestA.createdAt < ttlExpireAfterSeconds * 1000) :=
  ⟨(queries_no_expired_after_sweep 200 wStore (by decide)).1,
   by decide,
   (queries_no_expired_after_sweep 200 wStore (by decide)).1 wLatestA
     (by decide)⟩

/-- **C1 (code bug).** The `SystemInfo` model does not define the
`cleanupOldData` static that `router.delete('/cleanup')` invokes, so every
cleanup request with valid hours — including the default `hours = 24` on
an empty store — raises `TypeError` and is answered with the 500 handler,
never the claimed 200 with `deletedCount`. -/
theorem cleanup_route_broken :
    systemInfoStatics.contains "cleanupOldData" = false ∧
    cleanupRoute (some 24) ([] : Store) =
      CleanupResp.serverError "SystemInfo.cleanupOldData is not a function" ∧
    (∀ store : Store, cleanupRoute none store =
      CleanupResp.serverError "SystemInfo.cleanupOldData is not a function") := by
  exact ⟨by decide, rfl, fun store => rfl⟩


/-- **C5.** POST `/systemdata` answers 400 MissingField whenever a
required field is absent; with all fields present (non-empty strings for
pcId/os) it answers 400 OutOfRange whenever cpu/ram/disk lies outside
[0,100] or uptime is negative (the missing-field check has precedence);
and any in-range submission — the boundary values 0 and 100 included —
is accepted with 201 and appended to the store with `recordedAt = now`. -/
theorem ingestion_validation (b : PostBody) (p o : String) (c r d u : ℚ)
    (now : ℤ) (store : Store) :
    ((b.pcId = none ∨ b.cpu = none ∨ b.ram = none ∨ b.disk = none ∨
        b.os = none ∨ b.uptime = none) →
      postRoute b now store =
        (.missingField
          "Missing required fields: pcId, cpu, ram, disk, os, uptime",
          store)) ∧
    (p ≠ "" → o ≠ "" →
      ((c < 0 ∨ 100 < c ∨ r < 0 ∨ 100 < r ∨ d < 0 ∨ 100 < d ∨ u < 0) →
        postRoute ⟨some p, some c, some r, some d, some o, some u⟩ now store =
          (.outOfRange
            "Invalid data ranges: cpu/ram/disk (0-100), uptime (>=0)",
            store)) ∧
      (0 ≤ c → c ≤ 100 → 0 ≤ r → r ≤ 100 → 0 ≤ d → d ≤ 100 → 0 ≤ u →
        postRoute ⟨some p, some c, some r, some d, some o, some u⟩ now store =
          (.created ⟨p, c, r, d, o, u, now⟩,
            store ++ [⟨p, c, r, d, o, u, now⟩]))) := by
  refine ⟨?_, fun hp ho => ⟨?_, ?_⟩⟩
  · intro habs
    have hcond : (strFalsy b.pcId ∨ b.cpu = none ∨ b.ram = none ∨
        b.disk = none ∨ strFalsy b.os ∨ b.uptime = none) := by
      rcases habs with h | h | h | h | h | h
      · exact Or.inl (by rw [h]; rfl)
      · exact Or.inr (Or.inl h)
      · exact Or.inr (Or.inr (Or.inl h))
      · exact Or.inr (Or.inr (Or.inr (Or.inl h)))
      · exact Or.inr (Or.inr (Or.inr (Or.inr (Or.inl (by rw [h]; rfl)))))
      · exact Or.inr (Or.inr (Or.inr (Or.inr (Or.inr h))))
    rw [postRoute, if_pos hcond]
  · intro hrange
    have hguard : ¬(strFalsy (some p) ∨ (some c : Option ℚ) = none ∨
        (some r : Option ℚ) = none ∨ (some d : Option ℚ) = none ∨
        strFalsy (some o) ∨ (some u : Option ℚ) = none) := by
      simp [strFalsy, hp, ho]
    rw [postRoute, if_neg hguard]
    simp only [Option.getD_some]
    rw [if_pos hrange]
  · intro h0c h1c h0r h1r h0d h1d h0u
    have hguard : ¬(strFalsy (some p) ∨ (some c : Option ℚ) = none ∨
        (some r : Option ℚ) = none ∨ (some d : Option ℚ) = none ∨
        strFalsy (some o) ∨ (some u : Option ℚ) = none) := by
      simp [strFalsy, hp, ho]
    rw [postRoute, if_neg hguard]
    simp only [Option.getD_some]
    rw [if_neg]
    simp only [not_or, not_lt]
    exact ⟨h0c, h1c, h0r, h1r, h0d, h1d, h0u⟩

/-- Witness for C5: missing pcId, missing uptime, cpu = 101, cpu = −1
each rejected with the corresponding reason; boundary values cpu = 0,
ram = disk = 100, uptime = 0 accepted and stored. -/
theorem ingestion_validation_witness :
    (postRoute ⟨none, some 50, some 50, some 50, some "linux", some 100⟩
        0 ([] : Store) =
      (.missingField
        "Missing required fields: pcId, cpu, ram, disk, os, uptime", [])) ∧
    (postRoute ⟨some "PC-1", some 50, some 50, some 50, some "linux", none⟩
        0 ([] : Store) =
      (.missingField
        "Missing required fields: pcId, cpu, ram, disk, os, uptime", [])) ∧
    (postRoute ⟨some "PC-1", some 101, some 50, some 50, some "linux", some 100⟩
        0 ([] : Store) =
      (.outOfRange
        "Invalid data ranges: cpu/ram/disk (0-100), uptime (>=0)", [])) ∧
    (postRoute ⟨some "PC-1", some (-1), some 50, some 50, some "linux", some 100⟩
        0 ([] : Store) =
      (.outOfRange
        "Invalid data ranges: cpu/ram/disk (0-100), uptime (>=0)", [])) ∧
    (postRoute ⟨some "PC-1", some 0, some 100, some 100, some "linux", some 0⟩
        7 ([] : Store) =
      (.created ⟨"PC-1", 0, 100, 100, "linux", 0, 7⟩,
        [⟨"PC-1", 0, 100, 100, "linux", 0, 7⟩])) :=
  ⟨(ingestion_validation ⟨none, some 50, some 50, some 50, some "linux",
      some 100⟩ "x" "x" 0 0 0 0 0 []).1 (Or.inl rfl),
   (ingestion_validation ⟨some "PC-1", some 50, some 50, some 50,
      some "linux", none⟩ "x" "x" 0 0 0 0 0 []).1
     (Or.inr (Or.inr (Or.inr (Or.inr (Or.inr rfl))))),
   (((ingestion_validation ⟨some "PC-1", some 101, some 50, some 50,
      some "linux", some 100⟩ "PC-1" "linux" 101 50 50 100 0 []).2
     (by decide) (by decide)).1) (Or.inr (Or.inl (by decide))),
   (((ingestion_validation ⟨some "PC-1", some (-1), some 50, some 50,
      some "linux", some 100⟩ "PC-1" "linux" (-1) 50 50 100 0 []).2
     (by decide) (by decide)).1) (Or.inl (by decide)),
   (((ingestion_validation ⟨some "PC-1", some 0, some 100, some 100,
      some "linux", some 0⟩ "PC-1" "linux" 0 100 100 0 7 []).2
     (by decide) (by decide)).2) (by decide) (by decide) (by decide)
     (by decide) (by decide) (by decide) (by decide)⟩

/-- **C10.** The TTL index physically deletes every Sample 24 hours
after its `recordedAt`: the declared `expireAfterSeconds` equals 24 hours
exactly, the sweep keeps a stored Sample iff it is younger than 24 hours
(independently of any purge call or query parameter — `ttlSweep` takes
neither), and consequently for `hours = h > 24` (accepted up to 168 by
the route's validation, which also lets `h` reach the all-PCs branch) a
history query over a swept store only returns Samples from the last 24
hours. -/
theorem ttl_retention_bound (p : String) (h now : ℤ) (store : Store)
    (hgt : 24 < h) (hle : h ≤ 168) :
    ttlExpireAfterSeconds * 1000 = 24 * msPerHour ∧
    (∀ s ∈ store, (s ∈ ttlSweep now store ↔
      now - s.createdAt < 24 * msPerHour)) ∧
    (∀ s ∈ getHistoricalData p h now (ttlSweep now store),
      now - s.createdAt < 24 * msPerHour) ∧
    getRoute none (some h) now store =
      GetResp.allData (getLatestData store)
        ((getOverviewStats now store).headD ⟨0, 0, 0, 0⟩) "24 hours" := by
  have hms : ttlExpireAfterSeconds * 1000 = 24 * msPerHour := by decide
  refine ⟨hms, ?_, ?_, ?_⟩
  · intro s hs
    rw [ttlSweep, List.mem_filter]
    constructor
    · rintro ⟨_, hb⟩
      rw [← hms]
      exact of_decide_eq_true hb
    · intro hlt
      refine ⟨hs, decide_eq_true ?_⟩
      rw [hms]
      exact hlt
  · intro s hs
    have hmem : s ∈ ttlSweep now store :=
      List.mem_of_mem_filter ((List.mem_insertionSort _).mp hs)
    have := List.of_mem_filter hmem
    rw [← hms]
    exact of_decide_eq_true this
  · rw [getRoute]
    have hcond : ¬((some h).getD 24 < 1 ∨ 168 < (some h).getD 24) := by
      simp only [Option.getD_some]
      omega
    rw [if_neg hcond]
    simp

/-- Witness for C10 at `h = 48`: the unexpired fixture sample survives
the sweep, the 25-hour-old sample does not, and the history bound holds. -/
theorem ttl_retention_bound_witness :
    (wLatestA ∈ ttlSweep 200 wStore ↔
      (200 : ℤ) - wLatestA.createdAt < 24 * msPerHour) ∧
    (wExpired ∈ ttlSweep 90000000 wExpiredStore ↔
      (90000000 : ℤ) - wExpired.createdAt < 24 * msPerHour) ∧
    (∀ s ∈ getHistoricalData "A" 48 200 (ttlSweep 200 wStore),
      (200 : ℤ) - s.createdAt < 24 * msPerHour) ∧
    getRoute none (some 48) 200 wStore =
      GetResp.allData (getLatestData wStore)
        ((getOverviewStats 200 wStore).headD ⟨0, 0, 0, 0⟩) "24 hours" :=
  ⟨(ttl_retention_bound "A" 48 200 wStore (by decide) (by decide)).2.1
      wLatestA (by decide),
   (ttl_retention_bound "A" 48 90000000 wExpiredStore (by decide)
      (by decide)).2.1 wExpired (by decide),
   (ttl_retention_bound "A" 48 200 wStore (by decide) (by decide)).2.2.1,
   (ttl_retention_bound "A" 48 200 wStore (by decide) (by decide)).2.2.2⟩

end PCMonitor
